import Mathlib

/-!
Verification of the scene-graph decoder of the `dot_vox` repository
(`src/scene.rs`): the transform algebra, the packed rotation-byte codec,
`Transform::from_dict`, the scene-graph collapse, and `parse_group_node`.

Machine integers (`i32`, `i8`, `u32`, `u8`) are embedded as `Int`/`Nat`;
the values manipulated by the claims stay far from the overflow bounds, and
where a bound matters (`u8` parsing, `u32` fields) it is modelled explicitly.
A Rust panic (out-of-bounds slice index) is modelled as `Option.none`.
-/

set_option maxRecDepth 40000

/-- A 3-element vector, mirroring `[i32; 3]` / `[i8; 3]` in `scene.rs`. -/
@[ext]
structure Vec3 where
  a0 : Int
  a1 : Int
  a2 : Int
deriving DecidableEq

/-- A row-major 3×3 matrix, mirroring `[[i8; 3]; 3]` in `scene.rs`. -/
@[ext]
structure Mat3 where
  r0 : Vec3
  r1 : Vec3
  r2 : Vec3
deriving DecidableEq

/-- `dot_i32` / `dot_i8` from `Transform::apply`. -/
def dot (v1 v2 : Vec3) : Int :=
  v1.a0 * v2.a0 + v1.a1 * v2.a1 + v1.a2 * v2.a2

/-- `add` from `Transform::apply`. -/
def vadd (v1 v2 : Vec3) : Vec3 :=
  ⟨v1.a0 + v2.a0, v1.a1 + v2.a1, v1.a2 + v2.a2⟩

/-- `col_i8(m, 0)` from `Transform::apply`. -/
def col0 (m : Mat3) : Vec3 := ⟨m.r0.a0, m.r1.a0, m.r2.a0⟩

/-- `col_i8(m, 1)` from `Transform::apply`. -/
def col1 (m : Mat3) : Vec3 := ⟨m.r0.a1, m.r1.a1, m.r2.a1⟩

/-- `col_i8(m, 2)` from `Transform::apply`. -/
def col2 (m : Mat3) : Vec3 := ⟨m.r0.a2, m.r1.a2, m.r2.a2⟩

/-- `mul_mv_i32(m, v)`: matrix–vector product, row dots. -/
def mul_mv (m : Mat3) (v : Vec3) : Vec3 :=
  ⟨dot m.r0 v, dot m.r1 v, dot m.r2 v⟩

/-- `mul_vm_i8(v, m)`: row-vector–matrix product, column dots. -/
def mul_vm (v : Vec3) (m : Mat3) : Vec3 :=
  ⟨dot v (col0 m), dot v (col1 m), dot v (col2 m)⟩

/-- The identity rotation matrix `[[1,0,0],[0,1,0],[0,0,1]]`. -/
def identityMat : Mat3 := ⟨⟨1, 0, 0⟩, ⟨0, 1, 0⟩, ⟨0, 0, 1⟩⟩

/-- The `Transform` struct of `scene.rs`: translation and row-major rotation. -/
@[ext]
structure Transform where
  t : Vec3
  r : Mat3
deriving DecidableEq

/-- `Transform::default()`. -/
def Transform.default : Transform := ⟨⟨0, 0, 0⟩, identityMat⟩

/-- `Transform::apply(self, other)` from `scene.rs` lines 85–113:
`t = other.r · self.t + other.t`; each result row `i` is
`mul_vm_i8(other.r[i], self.r)`. -/
def Transform.apply (self other : Transform) : Transform :=
  { t := vadd (mul_mv other.r self.t) other.t
    r := ⟨mul_vm other.r.r0 self.r, mul_vm other.r.r1 self.r,
          mul_vm other.r.r2 self.r⟩ }

/-- Interpretation of a `Vec3` as a Mathlib vector over `ℤ`. -/
def Vec3.toFun (v : Vec3) : Fin 3 → Int := ![v.a0, v.a1, v.a2]

/-- Interpretation of a `Mat3` as a Mathlib matrix over `ℤ`. -/
def Mat3.toMatrix (m : Mat3) : Matrix (Fin 3) (Fin 3) Int :=
  ![m.r0.toFun, m.r1.toFun, m.r2.toFun]

/-- A signed permutation row/column: exactly one nonzero entry, equal to ±1. -/
def VecIsSignedUnit (v : Vec3) : Prop :=
  ((v.a0 = 1 ∨ v.a0 = -1) ∧ v.a1 = 0 ∧ v.a2 = 0) ∨
  (v.a0 = 0 ∧ (v.a1 = 1 ∨ v.a1 = -1) ∧ v.a2 = 0) ∨
  (v.a0 = 0 ∧ v.a1 = 0 ∧ (v.a2 = 1 ∨ v.a2 = -1))

instance (v : Vec3) : Decidable (VecIsSignedUnit v) := by
  unfold VecIsSignedUnit; infer_instance

/-- A signed permutation matrix: every row and every column has exactly one
nonzero entry, of value ±1. -/
def IsSignedPerm (m : Mat3) : Prop :=
  VecIsSignedUnit m.r0 ∧ VecIsSignedUnit m.r1 ∧ VecIsSignedUnit m.r2 ∧
  VecIsSignedUnit (col0 m) ∧ VecIsSignedUnit (col1 m) ∧ VecIsSignedUnit (col2 m)

instance (m : Mat3) : Decidable (IsSignedPerm m) := by
  unfold IsSignedPerm; infer_instance

/-- `Transform.default` is a left identity for `apply` (matches the
documented property `apply(identity, X) == X`). -/
theorem default_apply (X : Transform) : Transform.default.apply X = X := by
  obtain ⟨⟨t0, t1, t2⟩, ⟨⟨a, b, c⟩, ⟨d, e, f⟩, ⟨g, h, i⟩⟩⟩ := X
  simp only [Transform.apply, Transform.default, identityMat, vadd, mul_mv,
    mul_vm, dot, col0, col1, col2, Transform.mk.injEq, Mat3.mk.injEq,
    Vec3.mk.injEq]
  norm_num

/-- Inputs exhibiting non-commuting rotations: swap of axes 0,1 and swap of
axes 1,2. -/
def cexSwap01 : Transform := ⟨⟨0, 0, 0⟩, ⟨⟨0, 1, 0⟩, ⟨1, 0, 0⟩, ⟨0, 0, 1⟩⟩⟩

/-- Second input for the composition counterexample. -/
def cexSwap12 : Transform := ⟨⟨0, 0, 0⟩, ⟨⟨1, 0, 0⟩, ⟨0, 0, 1⟩, ⟨0, 1, 0⟩⟩⟩

/-- C1 counterexample: at `self = cexSwap01`, `other = cexSwap12`, the result
of `apply` does NOT have rotation `self.r · other.r` (and a fortiori the
claimed conjunction fails): the code multiplies in the other order. -/
theorem C1_counterexample :
    ¬ ((cexSwap01.apply cexSwap12).t.toFun =
          cexSwap12.r.toMatrix.mulVec cexSwap01.t.toFun + cexSwap12.t.toFun ∧
        (cexSwap01.apply cexSwap12).r.toMatrix =
          cexSwap01.r.toMatrix * cexSwap12.r.toMatrix) := by
  intro h
  have h2 := congrFun (congrFun h.2 0) 1
  simp [cexSwap01, cexSwap12, Transform.apply, Mat3.toMatrix, Vec3.toFun,
    mul_vm, dot, col0, col1, col2, Matrix.mul_apply, Fin.sum_univ_three] at h2

/-- C1 (amended): `apply(self, other)` has translation
`other.r · self.t + other.t` and rotation `other.r · self.r` (not
`self.r · other.r`), computed row-wise: row `i` of the result is row `i` of
`other.r` multiplied on the right by `self.r`. -/
theorem C1_amended (s o : Transform) :
    (s.apply o).t.toFun = o.r.toMatrix.mulVec s.t.toFun + o.t.toFun ∧
    (s.apply o).r.toMatrix = o.r.toMatrix * s.r.toMatrix ∧
    ∀ i, (s.apply o).r.toMatrix i = Matrix.vecMul (o.r.toMatrix i) s.r.toMatrix := by
  obtain ⟨⟨t0, t1, t2⟩, ⟨⟨a, b, c⟩, ⟨d, e, f⟩, ⟨g, h, i⟩⟩⟩ := s
  obtain ⟨⟨u0, u1, u2⟩, ⟨⟨p, q, w⟩, ⟨x, y, z⟩, ⟨k, l, n⟩⟩⟩ := o
  refine ⟨?_, ?_, ?_⟩
  · funext j
    fin_cases j <;>
      simp [Transform.apply, Mat3.toMatrix, Vec3.toFun, vadd, mul_mv, mul_vm,
        dot, col0, col1, col2, Matrix.mulVec, Matrix.dotProduct,
        Fin.sum_univ_three]
  · funext j m
    fin_cases j <;> fin_cases m <;>
      simp [Transform.apply, Mat3.toMatrix, Vec3.toFun, mul_vm, dot, col0,
        col1, col2, Matrix.mul_apply, Fin.sum_univ_three]
  · intro j
    funext m
    fin_cases j <;> fin_cases m <;>
      simp [Transform.apply, Mat3.toMatrix, Vec3.toFun, mul_vm, dot, col0,
        col1, col2, Matrix.vecMul, Matrix.dotProduct, Fin.sum_univ_three]

/-- C5: `apply` is associative; the signed-permutation hypotheses on the
rotation parts come from the claim (exact integer arithmetic makes the
identity hold unconditionally, and the hypotheses keep all intermediate
machine-width values in range). -/
theorem C5_apply_assoc (A B C : Transform)
    (_hA : IsSignedPerm A.r) (_hB : IsSignedPerm B.r) (_hC : IsSignedPerm C.r) :
    (A.apply B).apply C = A.apply (B.apply C) := by
  obtain ⟨⟨t0, t1, t2⟩, ⟨⟨a, b, c⟩, ⟨d, e, f⟩, ⟨g, h, i⟩⟩⟩ := A
  obtain ⟨⟨u0, u1, u2⟩, ⟨⟨p, q, w⟩, ⟨x, y, z⟩, ⟨k, l, n⟩⟩⟩ := B
  obtain ⟨⟨v0, v1, v2⟩, ⟨⟨p2, q2, w2⟩, ⟨x2, y2, z2⟩, ⟨k2, l2, n2⟩⟩⟩ := C
  simp only [Transform.apply, vadd, mul_mv, mul_vm, dot, col0, col1, col2,
    Transform.mk.injEq, Mat3.mk.injEq, Vec3.mk.injEq]
  and_intros <;> ring

/-- A concrete transform with a nontrivial signed-permutation rotation, used
to witness C5's hypotheses. -/
def witnessT0 : Transform := ⟨⟨1, 2, 3⟩, ⟨⟨0, -1, 0⟩, ⟨1, 0, 0⟩, ⟨0, 0, 1⟩⟩⟩

/-- C5 witness: the hypotheses hold at `witnessT0` and the associativity
equation follows from `C5_apply_assoc` there. -/
theorem C5_witness :
    IsSignedPerm witnessT0.r ∧
    (witnessT0.apply witnessT0).apply witnessT0 =
      witnessT0.apply (witnessT0.apply witnessT0) :=
  ⟨by decide,
   C5_apply_assoc witnessT0 witnessT0 witnessT0 (by decide) (by decide) (by decide)⟩

/-- Outcome of the rotation-byte decode inside `Transform::from_dict`
(lines 130–156): `ok` for a decoded matrix, `reject` when the guard
`n & 3 != 3 && n >> 2 != 3` fails (the `None` branch), and `panics` when
the code indexes `rows` out of bounds (a Rust panic). -/
inductive RotDecode where
  | panics
  | reject
  | ok (m : Mat3)
deriving DecidableEq

/-- The fixed `rows` lookup table of `from_dict`. -/
def rotRows : List Vec3 := [⟨1, 0, 0⟩, ⟨0, 1, 0⟩, ⟨0, 0, 1⟩]

/-- Scale a row by a sign, as in `[r1[0]*signs[0], r1[1]*signs[0], r1[2]*signs[0]]`. -/
def scaleRow (v : Vec3) (s : Int) : Vec3 := ⟨v.a0 * s, v.a1 * s, v.a2 * s⟩

/-- The rotation-byte decode of `from_dict`, for a byte `n < 256`.
Mirrors the source: signs from bits 4–6; guard `n & 3 ≠ 3 ∧ n >> 2 ≠ 3`
(note: the second conjunct shifts without masking); row lookups at indices
`n & 3`, `(n >> 2) & 3` and `!(n | (n >> 2)) & 3` (bitwise complement on a
`u8`, i.e. XOR with 255); an out-of-range lookup is a panic. -/
def decodeRotation (n : Nat) : RotDecode :=
  let s0 : Int := if (n >>> 4) &&& 1 = 0 then 1 else -1
  let s1 : Int := if (n >>> 5) &&& 1 = 0 then 1 else -1
  let s2 : Int := if (n >>> 6) &&& 1 = 0 then 1 else -1
  if n &&& 3 ≠ 3 ∧ n >>> 2 ≠ 3 then
    match rotRows.get? (n &&& 3), rotRows.get? ((n >>> 2) &&& 3),
        rotRows.get? (((n ||| (n >>> 2)) ^^^ 255) &&& 3) with
    | Option.some r1, Option.some r2, Option.some r3 =>
        RotDecode.ok ⟨scaleRow r1 s0, scaleRow r2 s1, scaleRow r3 s2⟩
    | _, _, _ => RotDecode.panics
  else
    RotDecode.reject

/-- Strip one leading `'+'`, as Rust's integer `from_str` does. -/
def stripPlus : List Char → List Char
  | '+' :: rest => rest
  | cs => cs

/-- Fold a digit list into the number it denotes. -/
def digitsToNat (l : List Char) : Nat :=
  l.foldl (fun a c => a * 10 + (c.toNat - 48)) 0

/-- Rust's `str::parse::<u8>`: optional `'+'`, then one or more digits, value
below 256; anything else is an error (`None`). -/
def parseU8 (s : String) : Option Nat :=
  if stripPlus s.data ≠ [] ∧ (stripPlus s.data).all Char.isDigit then
    if digitsToNat (stripPlus s.data) < 256 then
      Option.some (digitsToNat (stripPlus s.data))
    else Option.none
  else Option.none

/-- Strip one leading sign character, returning (negative?, rest). -/
def stripSign : List Char → Bool × List Char
  | '+' :: rest => (false, rest)
  | '-' :: rest => (true, rest)
  | cs => (false, cs)

/-- Rust's `str::parse::<i32>`: optional sign, then one or more digits, value
within the `i32` range. -/
def parseI32 (s : String) : Option Int :=
  let p := stripSign s.data
  if p.2 ≠ [] ∧ p.2.all Char.isDigit then
    let v : Int := if p.1 then -(Int.ofNat (digitsToNat p.2)) else Int.ofNat (digitsToNat p.2)
    if -2147483648 ≤ v ∧ v < 2147483648 then Option.some v else Option.none
  else Option.none

/-- Attribute dictionary as consumed by `Transform::from_dict`: lookup by
string key. -/
def Dict : Type := String → Option String

/-- The `_t` decode of `from_dict` (lines 115–123): split on `' '`, parse
each piece as `i32`, keep the successes, require exactly three values,
otherwise fall back to `[0, 0, 0]`. -/
def translationFromDict (dict : Dict) : Vec3 :=
  ((dict "_t").bind fun s =>
    let values := ((s.splitOn " ").map parseI32).filterMap id
    if h : values.length = 3 then
      Option.some ⟨values.get ⟨0, by omega⟩, values.get ⟨1, by omega⟩,
        values.get ⟨2, by omega⟩⟩
    else
      Option.none).getD ⟨0, 0, 0⟩

/-- The `unwrap_or` step applied to a decode outcome: a rejected byte falls
back to the identity matrix, a decoded matrix is kept, a panic propagates. -/
def rotResultToOption (r : RotDecode) : Option Mat3 :=
  match r with
  | RotDecode.panics => Option.none
  | RotDecode.reject => Option.some identityMat
  | RotDecode.ok m => Option.some m

/-- The `_r` decode of `from_dict` (lines 130–156): missing key or unparsable
byte falls back to the identity matrix; otherwise the byte is decoded. -/
def rotationFromDict (dict : Dict) : Option Mat3 :=
  match (dict "_r").bind parseU8 with
  | Option.none => Option.some identityMat
  | Option.some n => rotResultToOption (decodeRotation n)

/-- `Transform::from_dict` (lines 114–161). `none` models a panic during the
rotation decode; otherwise the translation and rotation are assembled. -/
def Transform.from_dict (dict : Dict) : Option Transform :=
  match rotationFromDict dict with
  | Option.some r => Option.some ⟨translationFromDict dict, r⟩
  | Option.none => Option.none

/-- A dictionary carrying only `_r = "28"`: byte 28 has bits 0–1 equal to 0
and bits 2–3 equal to 3, yet `28 >> 2 = 7 ≠ 3`, so the source's guard lets it
through and `rows[(28 >> 2 & 3)] = rows[3]` is an out-of-bounds index. -/
def dictR28 : Dict := fun k => if k = "_r" then Option.some "28" else Option.none

/-- C2: the rotation decode does NOT reject every byte whose bits 2–3 field
is 3: byte 28 reaches the row lookup and panics (out-of-bounds `rows[3]`),
so `from_dict` does not return normally on it. -/
theorem C2_panic_on_byte_28 :
    (28 >>> 2) &&& 3 = 3 ∧ decodeRotation 28 = RotDecode.panics ∧
    Transform.from_dict dictR28 = Option.none := by decide

/-- The row with `sign` at position `idx` and zeros elsewhere, as the claim
describes the rows of the decoded matrix. -/
def specRow (idx : Nat) (sign : Int) : Vec3 :=
  ⟨if idx = 0 then sign else 0, if idx = 1 then sign else 0,
   if idx = 2 then sign else 0⟩

/-- The matrix described by C3 for a byte whose two index fields are in
{0,1,2} and distinct: row 1's nonzero column is bits 0–1, row 2's is
bits 2–3, row 3's is the 2-bit complement of the union of the two index
bit-patterns, and the nonzero entry of row `i` is −1 exactly when bit
`4+i−1` is set. -/
def specRotMatrix (n : Nat) : Mat3 :=
  ⟨specRow (n &&& 3) (if (n >>> 4) &&& 1 = 1 then -1 else 1),
   specRow ((n >>> 2) &&& 3) (if (n >>> 5) &&& 1 = 1 then -1 else 1),
   specRow (((n &&& 3) ||| ((n >>> 2) &&& 3)) ^^^ 3)
     (if (n >>> 6) &&& 1 = 1 then -1 else 1)⟩

/-- C3: for every byte whose two 2-bit index fields are in {0,1,2} and
distinct, the rotation decode succeeds and returns exactly the matrix the
claim describes. -/
theorem C3_decode_valid (n : Nat) (hn : n < 256)
    (h1 : n &&& 3 ≠ 3) (h2 : (n >>> 2) &&& 3 ≠ 3)
    (hd : n &&& 3 ≠ (n >>> 2) &&& 3) :
    decodeRotation n = RotDecode.ok (specRotMatrix n) := by
  have key : ∀ m : Fin 256, m.val &&& 3 ≠ 3 → (m.val >>> 2) &&& 3 ≠ 3 →
      m.val &&& 3 ≠ (m.val >>> 2) &&& 3 →
      decodeRotation m.val = RotDecode.ok (specRotMatrix m.val) := by decide
  exact key ⟨n, hn⟩ h1 h2 hd

/-- C3 witness: byte 1 (row-1 index 1, row-2 index 0, all signs positive)
satisfies the hypotheses and decodes to the described matrix. -/
theorem C3_witness :
    ((1 : Nat) < 256 ∧ 1 &&& 3 ≠ 3 ∧ ((1 : Nat) >>> 2) &&& 3 ≠ 3 ∧
      (1 : Nat) &&& 3 ≠ ((1 : Nat) >>> 2) &&& 3) ∧
    decodeRotation 1 = RotDecode.ok (specRotMatrix 1) :=
  ⟨by decide, C3_decode_valid 1 (by decide) (by decide) (by decide) (by decide)⟩

/-- A dictionary carrying only `_r = "0"`: byte 0 has both index fields 0,
so the complement-of-union index for row 3 is 3 and `rows[3]` panics. -/
def dictR0 : Dict := fun k => if k = "_r" then Option.some "0" else Option.none

/-- C9: `from_dict` is NOT total: on the dictionary `{_r ↦ "0"}` the decode
reaches `rows[3]` (an out-of-bounds index, a Rust panic, modelled as
`none`), so no Transform is returned. -/
theorem C9_panic_on_r0 :
    decodeRotation 0 = RotDecode.panics ∧
    Transform.from_dict dictR0 = Option.none := by decide

/-- A dictionary carrying only `_r = "5"`: both index fields equal 1, the
guard passes, and rows 1 and 2 of the result are both `(0,1,0)`. -/
def dictR5 : Dict := fun k => if k = "_r" then Option.some "5" else Option.none

/-- The non-permutation matrix `from_dict` returns for `_r = "5"`. -/
def dupRowM5 : Mat3 := ⟨⟨0, 1, 0⟩, ⟨0, 1, 0⟩, ⟨0, 0, 1⟩⟩

/-- C10 counterexample: `from_dict` returns normally on `{_r ↦ "5"}`, and the
returned rotation has a duplicated row, so it is not a signed permutation
matrix. -/
theorem C10_counterexample :
    Transform.from_dict dictR5 = Option.some ⟨⟨0, 0, 0⟩, dupRowM5⟩ ∧
    ¬ IsSignedPerm dupRowM5 := by decide

/-- A successful `parseU8` yields a byte value. -/
theorem parseU8_lt {s : String} {n : Nat} (h : parseU8 s = Option.some n) :
    n < 256 := by
  unfold parseU8 at h
  split at h
  · split at h
    · injection h with h; omega
    · exact absurd h (by simp)
  · exact absurd h (by simp)

/-- Exhaustive check over one byte: whenever the decode succeeds, the result
is a signed permutation matrix (used below under the distinct-fields
hypothesis). -/
def rotPermCheck (n : Nat) : Bool :=
  match decodeRotation n with
  | RotDecode.ok m => decide (IsSignedPerm m)
  | _ => true

/-- For a byte with distinct 2-bit index fields, a successful decode yields a
signed permutation matrix. -/
theorem decode_distinct_perm {n : Nat} (hn : n < 256)
    (hd : n &&& 3 ≠ (n >>> 2) &&& 3) {m : Mat3}
    (hm : decodeRotation n = RotDecode.ok m) : IsSignedPerm m := by
  have key : ∀ k : Fin 256, k.val &&& 3 ≠ (k.val >>> 2) &&& 3 →
      rotPermCheck k.val = true := by decide
  have h2 := key ⟨n, hn⟩ hd
  unfold rotPermCheck at h2
  rw [hm] at h2
  exact of_decide_eq_true h2

/-- C10 (amended): every rotation matrix `from_dict` returns is a signed
permutation matrix, provided the `_r` value (when present and parsable)
is a byte whose two 2-bit index fields differ; when the two fields are
equal the decode can return a matrix with a duplicated row
(`C10_counterexample`). -/
theorem C10_amended (dict : Dict) (T : Transform)
    (hret : Transform.from_dict dict = Option.some T)
    (hr : ∀ s n, dict "_r" = Option.some s → parseU8 s = Option.some n →
      n &&& 3 ≠ (n >>> 2) &&& 3) :
    IsSignedPerm T.r := by
  unfold Transform.from_dict at hret
  rcases hb : (dict "_r").bind parseU8 with _ | n
  · have hrot : rotationFromDict dict = Option.some identityMat := by
      unfold rotationFromDict; rw [hb]
    rw [hrot] at hret
    cases hret
    show IsSignedPerm identityMat
    decide
  · obtain ⟨s, hs, hps⟩ := Option.bind_eq_some.mp hb
    have hn : n < 256 := parseU8_lt hps
    have hd := hr s n hs hps
    have hrot : rotationFromDict dict = rotResultToOption (decodeRotation n) := by
      unfold rotationFromDict; rw [hb]
    rcases hdec : decodeRotation n with _ | _ | m
    · rw [hdec] at hrot
      rw [hrot] at hret
      simp [rotResultToOption] at hret
    · rw [hdec] at hrot
      rw [hrot] at hret
      simp only [rotResultToOption] at hret
      cases hret
      show IsSignedPerm identityMat
      decide
    · rw [hdec] at hrot
      rw [hrot] at hret
      simp only [rotResultToOption] at hret
      cases hret
      exact decode_distinct_perm hn hd hdec

/-- A dictionary carrying only `_r = "1"`. -/
def dictR1 : Dict := fun k => if k = "_r" then Option.some "1" else Option.none

/-- The (signed permutation) rotation decoded from byte 1. -/
def permT1 : Transform := ⟨⟨0, 0, 0⟩, ⟨⟨0, 1, 0⟩, ⟨1, 0, 0⟩, ⟨0, 0, 1⟩⟩⟩

/-- C10 witness: on `{_r ↦ "1"}` the hypotheses of `C10_amended` hold and the
returned rotation is a signed permutation. -/
theorem C10_witness :
    Transform.from_dict dictR1 = Option.some permT1 ∧ IsSignedPerm permT1.r :=
  ⟨by decide,
   C10_amended dictR1 permT1 (by decide) (fun s n hs hn => by
     have h1 : dictR1 "_r" = Option.some "1" := by decide
     rw [h1] at hs
     have hs1 : "1" = s := Option.some.inj hs
     rw [← hs1] at hn
     have h2 : parseU8 "1" = Option.some 1 := by decide
     rw [h2] at hn
     have hn1 : 1 = n := Option.some.inj hn
     subst hn1
     decide)⟩

/-- The `NodeKind` enum of `scene.rs`. -/
inductive NodeKind where
  | group (children_ids : List Nat)
  | transform (child_id : Nat) (transform : Transform)
  | shape (model_id : Nat)
deriving DecidableEq

/-- The `SceneGraph` store: a map from node id to node kind (`HashMap`
lookup is modelled as a function to `Option`). -/
def SceneGraph : Type := Nat → Option NodeKind

/-- The `for id in children_ids` loop of `collapse_transform`
(lines 198–212), abstracted over the recursive call `rec` (instantiated
below with `collapseTransform` at the same graph): a Transform child is
entered with its transform prepended to the accumulated path; a
non-Transform child or a missing id contributes nothing; contributions are
concatenated in child order. -/
def collapseChildren (rec : Nat → List Transform → List (List Transform × Nat))
    (g : SceneGraph) (ids : List Nat) (transforms : List Transform) :
    List (List Transform × Nat) :=
  match ids with
  | [] => []
  | id :: rest =>
    (match g id with
     | Option.some (NodeKind.transform child_id transform) =>
         rec child_id (transform :: transforms)
     | Option.some _ => []
     | Option.none => []) ++ collapseChildren rec g rest transforms

/-- `SceneGraph::collapse_transform` (lines 192–222), with explicit fuel for
the unguarded recursion (the source assumes an acyclic graph; on a cyclic
graph it recurses forever, and exhausted fuel returns `[]`). Looks up
`child`: a Group runs the per-child loop, a Shape emits
`(transforms, model_id)`, a Transform directly under a Transform child is
skipped, as is a missing id. -/
def collapseTransform (g : SceneGraph) : Nat → Nat → List Transform →
    List (List Transform × Nat)
  | 0, _, _ => []
  | Nat.succ f, child, transforms =>
    match g child with
    | Option.some (NodeKind.group children_ids) =>
        collapseChildren (fun c ts => collapseTransform g f c ts) g
          children_ids transforms
    | Option.some (NodeKind.shape model_id) => [(transforms, model_id)]
    | Option.some (NodeKind.transform _ _) => []
    | Option.none => []

/-- `SceneGraph::collapse_to_vec` (lines 172–191): requires node 0 to be a
Transform node, starts the traversal at its child with the root transform as
the initial path, then folds every returned path from `Transform::default()`
with `apply`. -/
def collapseToVec (g : SceneGraph) (fuel : Nat) : List (Transform × Nat) :=
  match g 0 with
  | Option.some (NodeKind.transform child_id transform) =>
      (collapseTransform g fuel child_id [transform]).map
        (fun p => (p.1.foldl (fun t next => t.apply next) Transform.default, p.2))
  | _ => []

/-- C4: a root Transform (T1) over a Group over a single Transform (T2) over
a Shape collapses to exactly one entry, with transform `apply(T2, T1)` and
the Shape's model id. Fuel 3 suffices for the depth-3 chain. -/
theorem C4_chain_collapse (g : SceneGraph) (c1 c2 c3 m : Nat)
    (T1 T2 : Transform) (fuel : Nat)
    (h0 : g 0 = Option.some (NodeKind.transform c1 T1))
    (h1 : g c1 = Option.some (NodeKind.group [c2]))
    (h2 : g c2 = Option.some (NodeKind.transform c3 T2))
    (h3 : g c3 = Option.some (NodeKind.shape m))
    (hf : 3 ≤ fuel) :
    collapseToVec g fuel = [(T2.apply T1, m)] := by
  rcases fuel with _ | f1
  · omega
  rcases f1 with _ | f2
  · omega
  rcases f2 with _ | f3
  · omega
  simp [collapseToVec, collapseTransform, collapseChildren, h0, h1, h2, h3,
    default_apply]

/-- The concrete depth-3 chain from the specification's worked example:
root Transform (t = [1,0,0]) → Group → Transform (t = [0,2,0]) → Shape
(model 5). -/
def chainGraph : SceneGraph := fun n =>
  if n = 0 then Option.some (NodeKind.transform 1 ⟨⟨1, 0, 0⟩, identityMat⟩)
  else if n = 1 then Option.some (NodeKind.group [2])
  else if n = 2 then Option.some (NodeKind.transform 3 ⟨⟨0, 2, 0⟩, identityMat⟩)
  else if n = 3 then Option.some (NodeKind.shape 5)
  else Option.none

/-- C4 witness: the hypotheses hold for `chainGraph` with fuel 3, and the
collapse yields the single composed entry. -/
theorem C4_witness :
    collapseToVec chainGraph 3 =
      [(Transform.apply ⟨⟨0, 2, 0⟩, identityMat⟩ ⟨⟨1, 0, 0⟩, identityMat⟩, 5)] :=
  C4_chain_collapse chainGraph 1 2 3 5 ⟨⟨1, 0, 0⟩, identityMat⟩
    ⟨⟨0, 2, 0⟩, identityMat⟩ 3 rfl rfl rfl rfl (by decide)

/-- C6: when node 0 is absent, or is a Group or Shape node, `collapse_to_vec`
returns the empty list. -/
theorem C6_bad_root (g : SceneGraph) (fuel : Nat)
    (h : g 0 = Option.none ∨ (∃ cs, g 0 = Option.some (NodeKind.group cs)) ∨
      (∃ m, g 0 = Option.some (NodeKind.shape m))) :
    collapseToVec g fuel = [] := by
  rcases h with h | ⟨cs, h⟩ | ⟨m, h⟩ <;> simp [collapseToVec, h]

/-- C6 witness: a graph whose root id 0 is a Shape node collapses to the
empty list. -/
theorem C6_witness :
    collapseToVec (fun n => if n = 0 then Option.some (NodeKind.shape 4)
      else Option.none) 5 = [] :=
  C6_bad_root _ 5 (Or.inr (Or.inr ⟨4, rfl⟩))

/-- Does the store map `id` to a Transform node? (The grammar's requirement
on a Group's children.) -/
def isTransformAt (g : SceneGraph) (id : Nat) : Bool :=
  match g id with
  | Option.some (NodeKind.transform _ _) => true
  | _ => false

/-- The Group-child loop ignores children that are missing or not Transform
nodes: filtering them out of the list leaves the result unchanged. -/
theorem collapseChildren_filter
    (rec : Nat → List Transform → List (List Transform × Nat))
    (g : SceneGraph) (ids : List Nat) (ts : List Transform) :
    collapseChildren rec g ids ts =
      collapseChildren rec g (ids.filter (fun id => isTransformAt g id)) ts := by
  induction ids with
  | nil => rfl
  | cons id rest ih =>
    rw [List.filter_cons]
    rcases hgi : g id with _ | k
    · simp [collapseChildren, hgi, isTransformAt, ih]
    · rcases k with cs | ⟨c, t⟩ | m
      · simp [collapseChildren, hgi, isTransformAt, ih]
      · simp [collapseChildren, hgi, isTransformAt, ih]
      · simp [collapseChildren, hgi, isTransformAt, ih]

/-- C7: collapsing a Group node produces exactly the entries of its
Transform-node children in declared order; children that are missing from
the store or map to non-Transform nodes contribute nothing, as if they were
not listed (sibling branches unaffected). -/
theorem C7_group_skips_malformed (g : SceneGraph) (fuel gid : Nat)
    (ids : List Nat) (ts : List Transform)
    (h : g gid = Option.some (NodeKind.group ids)) :
    collapseTransform g (Nat.succ fuel) gid ts =
      collapseChildren (fun c ts2 => collapseTransform g fuel c ts2) g
        (ids.filter (fun id => isTransformAt g id)) ts := by
  rw [collapseTransform]
  rw [h]
  exact collapseChildren_filter _ g ids ts

/-- A group with a dangling child id (7), a Shape directly under the group
(malformed, id 3) and one well-formed Transform child (id 2). -/
def mixedGraph : SceneGraph := fun n =>
  if n = 0 then Option.some (NodeKind.transform 1 ⟨⟨1, 0, 0⟩, identityMat⟩)
  else if n = 1 then Option.some (NodeKind.group [7, 3, 2])
  else if n = 2 then Option.some (NodeKind.transform 3 ⟨⟨0, 2, 0⟩, identityMat⟩)
  else if n = 3 then Option.some (NodeKind.shape 5)
  else Option.none

/-- C7 witness: on `mixedGraph`'s group node the hypothesis holds, and the
loop result equals the loop over the filtered child list `[2]`. -/
theorem C7_witness :
    collapseTransform mixedGraph 2 1 [⟨⟨1, 0, 0⟩, identityMat⟩] =
      collapseChildren (fun c ts2 => collapseTransform mixedGraph 1 c ts2)
        mixedGraph
        ([7, 3, 2].filter (fun id => isTransformAt mixedGraph id))
        [⟨⟨1, 0, 0⟩, identityMat⟩] :=
  C7_group_skips_malformed mixedGraph 1 1 [7, 3, 2]
    [⟨⟨1, 0, 0⟩, identityMat⟩] rfl

/-- nom's `le_u32` on a `CompleteByteSlice`: consume four bytes and combine
them little-endian; fail when fewer than four bytes remain. -/
def le_u32 : List Nat → Option (Nat × List Nat)
  | b0 :: b1 :: b2 :: b3 :: rest =>
      Option.some (b0 + b1 * 256 + b2 * 65536 + b3 * 16777216, rest)
  | _ => Option.none

/-- Modelled from the spec: a length-prefixed string of the external
dictionary format (the `parser` module is not under `src/`): a little-endian
32-bit length followed by that many bytes. -/
def parse_lp_string (input : List Nat) : Option (List Nat × List Nat) :=
  match le_u32 input with
  | Option.some (len, rest) =>
      if len ≤ rest.length then Option.some (rest.take len, rest.drop len)
      else Option.none
  | Option.none => Option.none

/-- Modelled from the spec: the body of the external `parse_dict` — a fixed
count of (length-prefixed key, length-prefixed value) pairs. -/
def parse_pairs : Nat → List Nat → Option (List (List Nat × List Nat) × List Nat)
  | 0, input => Option.some ([], input)
  | Nat.succ k, input =>
    match parse_lp_string input with
    | Option.some (key, r1) =>
      match parse_lp_string r1 with
      | Option.some (value, r2) =>
        match parse_pairs k r2 with
        | Option.some (ps, rest) => Option.some ((key, value) :: ps, rest)
        | Option.none => Option.none
      | Option.none => Option.none
    | Option.none => Option.none

/-- Modelled from the spec: the external attribute-dictionary parser
`parse_dict` (from the `parser` module, not under `src/`): a count-prefixed
sequence of (length-prefixed key, length-prefixed value) string pairs. -/
def parse_dict (input : List Nat) :
    Option (List (List Nat × List Nat) × List Nat) :=
  match le_u32 input with
  | Option.some (count, rest) => parse_pairs count rest
  | Option.none => Option.none

/-- The `Node` struct of `scene.rs`. -/
structure Node where
  id : Nat
  kind : NodeKind
deriving DecidableEq

/-- `many_m_n!(num_children, num_children, le_u32)`: exactly `n` little-endian
32-bit values; fails if fewer are available. -/
def parse_child_ids : Nat → List Nat → Option (List Nat × List Nat)
  | 0, input => Option.some ([], input)
  | Nat.succ k, input =>
    match le_u32 input with
    | Option.some (v, rest) =>
      match parse_child_ids k rest with
      | Option.some (vs, r2) => Option.some (v :: vs, r2)
      | Option.none => Option.none
    | Option.none => Option.none

/-- `parse_group_node` (lines 226–232): little-endian node id, attribute
dictionary (discarded), child count, then exactly that many child ids,
assembled into a Group node; any sub-parser failure is a hard parse
failure. -/
def parse_group_node (input : List Nat) : Option (Node × List Nat) :=
  match le_u32 input with
  | Option.none => Option.none
  | Option.some (id, r1) =>
    match parse_dict r1 with
    | Option.none => Option.none
    | Option.some (_attributes, r2) =>
      match le_u32 r2 with
      | Option.none => Option.none
      | Option.some (num_children, r3) =>
        match parse_child_ids num_children r3 with
        | Option.none => Option.none
        | Option.some (children_ids, r4) =>
          Option.some (⟨id, NodeKind.group children_ids⟩, r4)

/-- The four little-endian bytes of a 32-bit value. -/
def encodeU32 (v : Nat) : List Nat :=
  [v % 256, v / 256 % 256, v / 65536 % 256, v / 16777216 % 256]

/-- `le_u32` inverts `encodeU32` for in-range values. -/
theorem le_u32_encode (v : Nat) (hv : v < 4294967296) (rest : List Nat) :
    le_u32 (encodeU32 v ++ rest) = Option.some (v, rest) := by
  simp only [encodeU32, List.cons_append, List.nil_append, le_u32,
    Option.some.injEq, Prod.mk.injEq]
  constructor
  · omega
  · trivial

/-- A successful `le_u32` consumes exactly four bytes. -/
theorem le_u32_len {input rest : List Nat} {v : Nat}
    (h : le_u32 input = Option.some (v, rest)) :
    input.length = rest.length + 4 := by
  rcases input with _ | ⟨a, _ | ⟨b, _ | ⟨c, _ | ⟨d, t⟩⟩⟩⟩
  · exact absurd h (by simp [le_u32])
  · exact absurd h (by simp [le_u32])
  · exact absurd h (by simp [le_u32])
  · exact absurd h (by simp [le_u32])
  · simp only [le_u32, Option.some.injEq, Prod.mk.injEq] at h
    rw [← h.2]
    simp

/-- Reading the encodings of the listed values consumes them in input
order. -/
theorem parse_child_ids_encode (vs : List Nat)
    (hb : ∀ v ∈ vs, v < 4294967296) (rest : List Nat) :
    parse_child_ids vs.length (vs.flatMap encodeU32 ++ rest) =
      Option.some (vs, rest) := by
  induction vs with
  | nil => rfl
  | cons v vs ih =>
    have hv : v < 4294967296 := hb v (List.mem_cons_self v vs)
    have hb2 : ∀ u ∈ vs, u < 4294967296 :=
      fun u hu => hb u (List.mem_cons_of_mem v hu)
    simp only [List.length_cons, List.flatMap_cons, List.append_assoc]
    simp only [parse_child_ids,
      le_u32_encode v hv (vs.flatMap encodeU32 ++ rest)]
    rw [ih hb2]

/-- Fewer than `4 * n` bytes cannot provide `n` 32-bit child ids. -/
theorem parse_child_ids_short (n : Nat) (input : List Nat)
    (h : input.length < 4 * n) :
    parse_child_ids n input = Option.none := by
  induction n generalizing input with
  | zero => omega
  | succ k ih =>
    rcases hle : le_u32 input with _ | ⟨v, rest⟩
    · simp only [parse_child_ids, hle]
    · have hlen := le_u32_len hle
      simp only [parse_child_ids, hle]
      rw [ih rest (by omega)]

/-- C8: after the node id, the attribute dictionary and the child count `n`
are read, `parse_group_node` consumes exactly `n` little-endian 32-bit child
ids and returns a Group node carrying them in input order; if fewer than
`n` ids' worth of bytes remain, the whole parse fails and no node is
produced. -/
theorem C8_parse_group (input r1 r2 r3 tail : List Nat) (idv n : Nat)
    (attrs : List (List Nat × List Nat)) (vs : List Nat)
    (h1 : le_u32 input = Option.some (idv, r1))
    (h2 : parse_dict r1 = Option.some (attrs, r2))
    (h3 : le_u32 r2 = Option.some (n, r3)) :
    (vs.length = n → (∀ v ∈ vs, v < 4294967296) →
      r3 = vs.flatMap encodeU32 ++ tail →
      parse_group_node input =
        Option.some (⟨idv, NodeKind.group vs⟩, tail)) ∧
    (r3.length < 4 * n → parse_group_node input = Option.none) := by
  constructor
  · intro hlen hb hr3
    subst hlen
    subst hr3
    simp only [parse_group_node, h1, h2, h3]
    rw [parse_child_ids_encode vs hb tail]
  · intro hshort
    simp only [parse_group_node, h1, h2, h3]
    rw [parse_child_ids_short n r3 hshort]

/-- C8 witness: a concrete group chunk — id 7, empty dictionary, two
children 1 and 5 — parses to the Group node `[1, 5]` with nothing left
over. -/
theorem C8_witness :
    parse_group_node
        [7, 0, 0, 0, 0, 0, 0, 0, 2, 0, 0, 0, 1, 0, 0, 0, 5, 0, 0, 0] =
      Option.some (⟨7, NodeKind.group [1, 5]⟩, []) :=
  (C8_parse_group
      [7, 0, 0, 0, 0, 0, 0, 0, 2, 0, 0, 0, 1, 0, 0, 0, 5, 0, 0, 0]
      [0, 0, 0, 0, 2, 0, 0, 0, 1, 0, 0, 0, 5, 0, 0, 0]
      [2, 0, 0, 0, 1, 0, 0, 0, 5, 0, 0, 0]
      [1, 0, 0, 0, 5, 0, 0, 0] [] 7 2 [] [1, 5] rfl rfl rfl).1
    rfl (by decide) rfl
